import Mathlib

/-!
Verification of the sol-vanity-gen repository (src/main.rs), a parallel
Solana vanity-address generator.  The source program is shallowly embedded:

* `check_vanity_string` mirrors the matcher function of the same name
  (src/main.rs lines 198-210); public keys are base58 strings, i.e. ASCII,
  so Rust's `str::to_lowercase` is modelled by `Char.toLower` mapped over
  the characters.
* The CSV pipeline (`prepare_csv_file`, `start_csv_writer_thread`) is
  modelled as functions from the sequence of records received on the
  result channel to the rows durably written; `File::create` truncates an
  existing file, which the model reflects by discarding prior contents.
* The concurrent worker pool of `spawn_threads` (lines 131-196) is
  modelled as a small-step transition system over a state holding the two
  shared counters and a multiset of per-worker control states; every
  mutex-guarded read-modify-write of the Rust code is one transition.
-/

namespace SolVanityGen

/-- `BATCH_SIZE` constant of src/main.rs line 18. -/
def BATCH_SIZE : Nat := 1000

/-! ## Matcher (src/main.rs `check_vanity_string`, lines 198-210) -/

/-- `check_vanity_string(public_key, vanity_string, vanity_lower, case_sensitive)`:
if case-sensitive, `public_key.ends_with(vanity_string)`; otherwise
`public_key.to_lowercase().ends_with(vanity_lower)`. -/
def check_vanity_string (public_key vanity_string vanity_lower : List Char)
    (case_sensitive : Bool) : Bool :=
  if case_sensitive then
    vanity_string.isSuffixOf public_key
  else
    vanity_lower.isSuffixOf (public_key.map Char.toLower)

/-- The matcher as the workers invoke it: `spawn_threads` (line 140) precomputes
`vanity_lower = vanity_string.to_lowercase()` once and passes both to
`check_vanity_string`. -/
def vanityMatches (public_key vanity_string : List Char) (case_sensitive : Bool) : Bool :=
  check_vanity_string public_key vanity_string (vanity_string.map Char.toLower) case_sensitive

/-- Two strings are equal up to letter case. -/
def sameUpToCase (a b : List Char) : Prop :=
  a.map Char.toLower = b.map Char.toLower

/-! ## Claims C5, C7, C8 about the matcher -/

/-- C5 counterexample: the spec's end-to-end scenario 2 requires that, with
pattern "AbC" and case_sensitive = false under anchor = prefix, a key whose
case-folded encoding starts with "abc" is accepted.  The code's matcher has
no anchor parameter and always tests the suffix: the key "AbCx" case-folds
to "abcx", which starts with the folded pattern "abc", yet the matcher
rejects it. -/
theorem anchor_claim_cex :
    ((['A','b','C','x'].map Char.toLower).take 3 = ['A','b','C'].map Char.toLower) ∧
    vanityMatches ['A','b','C','x'] ['A','b','C'] false = false := by
  decide

/-- C5 amended: the anchor is not configurable; for every configuration the
matcher accepts exactly the public keys whose encoding (case-folded when
`case_sensitive = false`) ends with the pattern. -/
theorem matcher_suffix_only (pk pat : List Char) (cs : Bool) :
    vanityMatches pk pat cs = true ↔
      (if cs then pat <:+ pk else pat.map Char.toLower <:+ pk.map Char.toLower) := by
  cases cs <;>
    simp [vanityMatches, check_vanity_string, List.isSuffixOf_iff_suffix]

/-- C7: the matcher is a pure deterministic function — identical inputs always
yield the identical boolean — and the empty pattern matches every key. -/
theorem matcher_pure_deterministic_empty (pk₁ pk₂ pat₁ pat₂ : List Char)
    (cs₁ cs₂ : Bool) (hpk : pk₁ = pk₂) (hpat : pat₁ = pat₂) (hcs : cs₁ = cs₂) :
    vanityMatches pk₁ pat₁ cs₁ = vanityMatches pk₂ pat₂ cs₂ ∧
    vanityMatches pk₁ [] cs₁ = true := by
  subst hpk hpat hcs
  refine ⟨rfl, ?_⟩
  cases cs₁ <;>
    simp [vanityMatches, check_vanity_string, List.isSuffixOf_iff_suffix]

/-- C7 witness. -/
theorem matcher_pure_deterministic_empty_witness :
    vanityMatches ['a','b'] ['b'] true = vanityMatches ['a','b'] ['b'] true ∧
    vanityMatches ['a','b'] [] true = true :=
  matcher_pure_deterministic_empty ['a','b'] ['a','b'] ['b'] ['b'] true true rfl rfl rfl

/-- C8: case-insensitive matching is invariant under case permutation of the
key: if the matcher with `case_sensitive = false` accepts `pk`, it accepts
every string equal to `pk` up to letter case. -/
theorem case_insensitive_case_invariant (pk pk' pat : List Char)
    (hvar : sameUpToCase pk pk') (h : vanityMatches pk pat false = true) :
    vanityMatches pk' pat false = true := by
  have hv : pk.map Char.toLower = pk'.map Char.toLower := hvar
  have h' : (pat.map Char.toLower).isSuffixOf (pk.map Char.toLower) = true := h
  show (pat.map Char.toLower).isSuffixOf (pk'.map Char.toLower) = true
  rw [← hv]
  exact h'

/-- C8 witness. -/
theorem case_insensitive_case_invariant_witness :
    vanityMatches ['A','b'] ['B'] false = true :=
  case_insensitive_case_invariant ['a','B'] ['A','b'] ['B']
    (show ['a','B'].map Char.toLower = ['A','b'].map Char.toLower by decide)
    (by decide)

/-! ## CSV pipeline (src/main.rs `prepare_csv_file` lines 124-129,
`start_csv_writer_thread` lines 212-244, `main` lines 64-77,
`report_completion` lines 246-265)

A file's contents are modelled as the list of its lines; a CSV row is a list
of fields, serialized by joining with commas. -/

/-- The header line `writeln!(writer, "Public Key,Private Key,Note")` of
`prepare_csv_file`. -/
def csvHeaderLine : String := "Public Key,Private Key,Note"

/-- Contents of `vanity_wallets.csv` right after `prepare_csv_file` ran:
`File::create` truncates, then the header line is written. -/
def prepare_csv_file : List String := [csvHeaderLine]

/-- The constant third column pushed for every record
(src/main.rs line 226). -/
def NOTE : String := "Generated by Vanity"

/-- The 3-field row the writer thread builds from a received
`(public_key, private_key)` pair (src/main.rs lines 223-227). -/
def rowOf (rec : String × String) : List String :=
  [rec.1, rec.2, NOTE]

/-- The writer thread's receive loop (src/main.rs lines 222-236): each
received record is appended to `batch`; once `batch.len() >= 100` the batch
is written out and cleared.  Returns (rows already written, rows still
buffered) after the channel has delivered `recs`. -/
def sinkFold (recs : List (String × String)) (written batch : List (List String)) :
    List (List String) × List (List String) :=
  match recs with
  | [] => (written, batch)
  | r :: rest =>
    if (batch ++ [rowOf r]).length ≥ 100 then
      sinkFold rest (written ++ (batch ++ [rowOf r])) []
    else
      sinkFold rest written (batch ++ [rowOf r])

/-- All rows the writer thread has durably written (and flushed) by the time
it exits: once `rx.recv()` errors — every producer dropped and the buffer
drained, so `received` is exactly the list of records sent on the channel —
the remaining partial batch is written and flushed (src/main.rs
lines 238-242). -/
def start_csv_writer_thread (received : List (String × String)) : List (List String) :=
  match sinkFold received [] [] with
  | (written, batch) => written ++ batch

/-- CSV serialization of one row. -/
def csvLine (row : List String) : String :=
  String.intercalate "," row

/-- Final contents of `vanity_wallets.csv` after a completed run.  The writer
thread re-opens the path with `File::create` (src/main.rs line 217), which
truncates the file, discarding the header `prepare_csv_file` wrote; only the
writer thread's own rows remain. -/
def finalCsvFile (received : List (String × String)) : List String :=
  (start_csv_writer_thread received).map csvLine

/-- The success message `report_completion` always prints
(src/main.rs line 264). -/
def savedMessage : String := "Results have been saved to vanity_wallets.csv"

/-- The lines printed by `report_completion` (src/main.rs lines 246-265);
the elapsed-time line is omitted (wall-clock time is outside the model). -/
def report_completion (found wallet_count_target generated : Nat) : List String :=
  (if found ≥ wallet_count_target then
      ["Found all " ++ toString wallet_count_target ++ " vanity addresses!"]
    else
      ["Found " ++ toString found ++ " out of " ++
        toString wallet_count_target ++ " vanity addresses."]) ++
  ["Total wallets generated: " ++ toString generated, savedMessage]

/-- The tail of `main` (src/main.rs lines 64-77): `let _ = writer_handle.join()`
discards the writer thread's outcome (a panic from a failed `write_record` or
`flush` surfaces only as the discarded join error), `report_completion` runs
unconditionally, and `main` returns `Ok(())`.  Result: (lines printed,
whether the process exits successfully). -/
def main_epilogue (writer_result : Except String Unit)
    (found wallet_count_target generated : Nat) : List String × Bool :=
  let _ := writer_result
  (report_completion found wallet_count_target generated, true)

/-! ## Claims C2, C3, C4, C10 about the CSV pipeline -/

/-- Helper: the writer thread writes exactly the received records, in order,
one row each. -/
theorem sinkFold_spec (recs : List (String × String)) :
    ∀ written batch : List (List String),
      (sinkFold recs written batch).1 ++ (sinkFold recs written batch).2 =
        written ++ batch ++ recs.map rowOf := by
  induction recs with
  | nil => intro w b; simp [sinkFold]
  | cons r rest ih =>
    intro w b
    simp only [sinkFold, List.map_cons]
    split
    · rw [ih]; simp
    · rw [ih]; simp

/-- Helper: rows written over a whole run, in closed form. -/
theorem writer_rows_eq (received : List (String × String)) :
    start_csv_writer_thread received = received.map rowOf := by
  have h := sinkFold_spec received [] []
  simp only [List.nil_append] at h
  unfold start_csv_writer_thread
  cases hfold : sinkFold received [] [] with
  | mk written batch => rw [hfold] at h; simpa using h

/-- C2: `prepare_csv_file` does write the header first, but the writer thread
re-creates (truncates) the same file, so a completed run that received one
record ends with a file holding only that record's row — the header row is
absent from the final output, contradicting the claimed durable contract. -/
theorem header_row_lost :
    prepare_csv_file = [csvHeaderLine] ∧
    finalCsvFile [("pk1", "sk1")] = ["pk1,sk1,Generated by Vanity"] ∧
    csvHeaderLine ∉ finalCsvFile [("pk1", "sk1")] := by
  decide

/-- C3: channel-delivery completeness — after the producer side closes, the
sink drains every buffered record and flushes the partial batch, so the rows
durably written are exactly (hence equinumerous with) the records sent. -/
theorem sink_persists_every_sent_record (received : List (String × String)) :
    start_csv_writer_thread received = received.map rowOf ∧
    (start_csv_writer_thread received).length = received.length := by
  refine ⟨writer_rows_eq received, ?_⟩
  rw [writer_rows_eq received, List.length_map]

/-- C4 counterexample: after a sink write/flush failure (writer thread ends
in an error) the program still prints the success report and exits
successfully — the failure does not propagate and success is reported. -/
theorem sink_error_reports_success_cex :
    savedMessage ∈ (main_epilogue (Except.error "flush failed") 1 1 1000).1 ∧
    (main_epilogue (Except.error "flush failed") 1 1 1000).2 = true := by
  decide

/-- C4 amended: a sink write/flush failure panics only the writer thread;
`main` discards the join result, so the run's outcome is independent of the
writer's outcome, the success report (including the saved-results message) is
printed regardless, and the process exits successfully. -/
theorem sink_error_ignored (r : Except String Unit)
    (found target generated : Nat) :
    main_epilogue r found target generated =
      main_epilogue (Except.ok ()) found target generated ∧
    savedMessage ∈ (main_epilogue r found target generated).1 ∧
    (main_epilogue r found target generated).2 = true := by
  refine ⟨rfl, ?_, rfl⟩
  show savedMessage ∈ report_completion found target generated
  unfold report_completion
  exact List.mem_append_right _ (by simp)

/-- C10: every row the writer thread writes has the literal string
"Generated by Vanity" as its third column. -/
theorem note_column_constant (received : List (String × String))
    (row : List String) (hrow : row ∈ start_csv_writer_thread received) :
    row[2]? = some NOTE := by
  rw [writer_rows_eq received] at hrow
  obtain ⟨r, _, rfl⟩ := List.mem_map.mp hrow
  rfl

/-- C10 witness. -/
theorem note_column_constant_witness :
    (["pk", "sk", NOTE] : List String)[2]? = some NOTE :=
  note_column_constant [("pk", "sk")] ["pk", "sk", NOTE] (by decide)

/-! ## Worker pool (src/main.rs `spawn_threads`, lines 131-196)

Each spawned worker runs
`while *found_count.lock() < wallet_count_target { generate batch; filter
matches; wallet_count += BATCH_SIZE; for each match { send; found += 1;
if found >= target break } }`.
A worker's control point is `idle` (at the outer `while` check), `ready`
(passed the check, about to generate a batch), `active m` (batch generated
and counted, `m` matches still to send), or `stopped` (exited the loop).
Workers are interchangeable, so the pool is a multiset of control points.
Every transition corresponds to one mutex-guarded critical section of the
Rust code. -/

/-- Control point of one worker thread. -/
inductive WorkerState where
  | idle : WorkerState
  | ready : WorkerState
  | active : Nat → WorkerState
  | stopped : WorkerState
deriving DecidableEq

/-- The shared state of a run: the two `Arc<Mutex<u64>>` counters
(`found_count`, `wallet_count` alias `generated`) plus every worker's
control point. -/
structure RunState where
  found : Nat
  generated : Nat
  workers : Multiset WorkerState
deriving DecidableEq

/-- State at run start: both counters zero, every worker at the outer
`while` check. -/
def initState (thread_count : Nat) : RunState :=
  ⟨0, 0, Multiset.replicate thread_count WorkerState.idle⟩

/-- One mutex-guarded step of some worker (src/main.rs lines 150-192):

* `passCheck`: the outer `while *found_count.lock() < target` check passes
  (line 153);
* `exitLoop`: the same check fails and the worker exits;
* `genBatch`: the worker generates `BATCH_SIZE` keypairs, filters out its
  `m ≤ BATCH_SIZE` matches, and adds `BATCH_SIZE` to `wallet_count` under
  the lock (lines 155-181);
* `sendMatch`: the worker sends one match, then under the lock increments
  `found_count` and breaks out of the match loop when the new value has
  reached the target (lines 184-191; `found_count` is monotone, so the
  subsequent outer re-check also fails and the worker exits);
* `finishBatch`: all matches of the batch sent, back to the outer check. -/
inductive Step (target : Nat) : RunState → RunState → Prop
  | passCheck (f g : Nat) (W : Multiset WorkerState) (hf : f < target) :
      Step target ⟨f, g, WorkerState.idle ::ₘ W⟩ ⟨f, g, WorkerState.ready ::ₘ W⟩
  | exitLoop (f g : Nat) (W : Multiset WorkerState) (hf : target ≤ f) :
      Step target ⟨f, g, WorkerState.idle ::ₘ W⟩ ⟨f, g, WorkerState.stopped ::ₘ W⟩
  | genBatch (f g : Nat) (W : Multiset WorkerState) (m : Nat) (hm : m ≤ BATCH_SIZE) :
      Step target ⟨f, g, WorkerState.ready ::ₘ W⟩
        ⟨f, g + BATCH_SIZE, WorkerState.active m ::ₘ W⟩
  | sendMatch (f g : Nat) (W : Multiset WorkerState) (m : Nat) :
      Step target ⟨f, g, WorkerState.active (m + 1) ::ₘ W⟩
        ⟨f + 1, g,
          (if target ≤ f + 1 then WorkerState.stopped else WorkerState.active m) ::ₘ W⟩
  | finishBatch (f g : Nat) (W : Multiset WorkerState) :
      Step target ⟨f, g, WorkerState.active 0 ::ₘ W⟩ ⟨f, g, WorkerState.idle ::ₘ W⟩

/-- States reachable from the start of a run with `thread_count` workers. -/
def Reachable (thread_count target : Nat) (s : RunState) : Prop :=
  Relation.ReflTransGen (Step target) (initState thread_count) s

/-- Matches of a worker's current batch not yet sent/counted. -/
def pendingOf : WorkerState → Nat
  | WorkerState.idle => 0
  | WorkerState.ready => 0
  | WorkerState.active m => m
  | WorkerState.stopped => 0

/-- Total matches generated (and already counted in `generated`) but not yet
counted in `found`. -/
def pendingSum (M : Multiset WorkerState) : Nat :=
  (M.map pendingOf).sum

/-- Number of workers that have exited their loop. -/
def stoppedCount (M : Multiset WorkerState) : Nat :=
  M.count WorkerState.stopped

theorem pendingSum_cons (a : WorkerState) (M : Multiset WorkerState) :
    pendingSum (a ::ₘ M) = pendingOf a + pendingSum M := by
  simp [pendingSum]

theorem pendingSum_cons_idle (M : Multiset WorkerState) :
    pendingSum (WorkerState.idle ::ₘ M) = pendingSum M := by
  rw [pendingSum_cons, pendingOf, Nat.zero_add]

theorem pendingSum_cons_ready (M : Multiset WorkerState) :
    pendingSum (WorkerState.ready ::ₘ M) = pendingSum M := by
  rw [pendingSum_cons, pendingOf, Nat.zero_add]

theorem pendingSum_cons_stopped (M : Multiset WorkerState) :
    pendingSum (WorkerState.stopped ::ₘ M) = pendingSum M := by
  rw [pendingSum_cons, pendingOf, Nat.zero_add]

theorem pendingSum_cons_active (m : Nat) (M : Multiset WorkerState) :
    pendingSum (WorkerState.active m ::ₘ M) = m + pendingSum M := by
  rw [pendingSum_cons, pendingOf]

/-- A worker that has passed the outer `while *found_count.lock() < target`
check exists only when the target is positive (`found_count` is a `u64`, so
the check can pass only for `target ≥ 1`). -/
def liveTarget (target : Nat) (M : Multiset WorkerState) : Prop :=
  (WorkerState.ready ∈ M ∨ ∃ m, WorkerState.active m ∈ M) → 1 ≤ target

theorem stoppedCount_cons_idle (M : Multiset WorkerState) :
    stoppedCount (WorkerState.idle ::ₘ M) = stoppedCount M :=
  Multiset.count_cons_of_ne (fun h => WorkerState.noConfusion h) M

theorem stoppedCount_cons_ready (M : Multiset WorkerState) :
    stoppedCount (WorkerState.ready ::ₘ M) = stoppedCount M :=
  Multiset.count_cons_of_ne (fun h => WorkerState.noConfusion h) M

theorem stoppedCount_cons_active (m : Nat) (M : Multiset WorkerState) :
    stoppedCount (WorkerState.active m ::ₘ M) = stoppedCount M :=
  Multiset.count_cons_of_ne (fun h => WorkerState.noConfusion h) M

theorem stoppedCount_cons_stopped (M : Multiset WorkerState) :
    stoppedCount (WorkerState.stopped ::ₘ M) = stoppedCount M + 1 :=
  Multiset.count_cons_self _ M

/-- Inductive invariant of the pool: the worker count is constant; every
`found` increment stems from an already-generated batch; and `found` can sit
above the target only because each increment landing at or past the target
stopped a distinct worker. -/
def Inv (thread_count target : Nat) (s : RunState) : Prop :=
  Multiset.card s.workers = thread_count ∧
  s.found + pendingSum s.workers ≤ s.generated ∧
  (s.found = 0 ∨ s.found < target ∨ s.found + 1 ≤ target + stoppedCount s.workers) ∧
  liveTarget target s.workers

theorem inv_init (thread_count target : Nat) :
    Inv thread_count target (initState thread_count) := by
  refine ⟨by simp [initState], ?_, Or.inl rfl, ?_⟩
  · simp [initState, pendingSum, Multiset.map_replicate, Multiset.sum_replicate, pendingOf]
  · intro hlive
    exfalso
    rcases hlive with hr | ⟨m, hm⟩
    · exact WorkerState.noConfusion (Multiset.eq_of_mem_replicate hr)
    · exact WorkerState.noConfusion (Multiset.eq_of_mem_replicate hm)

theorem liveTarget_of_cons {target : Nat} {a b : WorkerState}
    {M : Multiset WorkerState} (h : liveTarget target (a ::ₘ M))
    (hb : b = WorkerState.idle ∨ b = WorkerState.stopped) :
    liveTarget target (b ::ₘ M) := by
  intro hm
  apply h
  rcases hm with hr | ⟨m, hmm⟩
  · rcases Multiset.mem_cons.mp hr with he | hM
    · rcases hb with rfl | rfl <;> exact WorkerState.noConfusion he
    · exact Or.inl (Multiset.mem_cons_of_mem hM)
  · rcases Multiset.mem_cons.mp hmm with he | hM
    · rcases hb with rfl | rfl <;> exact WorkerState.noConfusion he
    · exact Or.inr ⟨m, Multiset.mem_cons_of_mem hM⟩

theorem inv_step {thread_count target : Nat} {s s' : RunState}
    (hs : Inv thread_count target s) (h : Step target s s') :
    Inv thread_count target s' := by
  obtain ⟨hcard, hgen, hbound, hlive⟩ := hs
  cases h with
  | passCheck f g W hf =>
    replace hcard : Multiset.card (WorkerState.idle ::ₘ W) = thread_count := hcard
    replace hgen : f + pendingSum (WorkerState.idle ::ₘ W) ≤ g := hgen
    replace hbound : f = 0 ∨ f < target ∨
        f + 1 ≤ target + stoppedCount (WorkerState.idle ::ₘ W) := hbound
    refine ⟨?_, ?_, ?_, ?_⟩
    · show Multiset.card (WorkerState.ready ::ₘ W) = thread_count
      rw [Multiset.card_cons] at hcard ⊢; exact hcard
    · show f + pendingSum (WorkerState.ready ::ₘ W) ≤ g
      rw [pendingSum_cons_ready]
      rw [pendingSum_cons_idle] at hgen; exact hgen
    · show f = 0 ∨ f < target ∨ f + 1 ≤ target + stoppedCount (WorkerState.ready ::ₘ W)
      rw [stoppedCount_cons_ready]
      rw [stoppedCount_cons_idle] at hbound; exact hbound
    · intro _
      omega
  | exitLoop f g W hf =>
    replace hgen : f + pendingSum (WorkerState.idle ::ₘ W) ≤ g := hgen
    replace hcard : Multiset.card (WorkerState.idle ::ₘ W) = thread_count := hcard
    replace hbound : f = 0 ∨ f < target ∨
        f + 1 ≤ target + stoppedCount (WorkerState.idle ::ₘ W) := hbound
    replace hlive : liveTarget target (WorkerState.idle ::ₘ W) := hlive
    refine ⟨?_, ?_, ?_, ?_⟩
    · show Multiset.card (WorkerState.stopped ::ₘ W) = thread_count
      rw [Multiset.card_cons] at hcard ⊢; exact hcard
    · show f + pendingSum (WorkerState.stopped ::ₘ W) ≤ g
      rw [pendingSum_cons_stopped]
      rw [pendingSum_cons_idle] at hgen; exact hgen
    · show f = 0 ∨ f < target ∨ f + 1 ≤ target + stoppedCount (WorkerState.stopped ::ₘ W)
      rw [stoppedCount_cons_stopped]
      rw [stoppedCount_cons_idle] at hbound
      omega
    · exact liveTarget_of_cons hlive (Or.inr rfl)
  | genBatch f g W m hm =>
    replace hcard : Multiset.card (WorkerState.ready ::ₘ W) = thread_count := hcard
    replace hgen : f + pendingSum (WorkerState.ready ::ₘ W) ≤ g := hgen
    replace hbound : f = 0 ∨ f < target ∨
        f + 1 ≤ target + stoppedCount (WorkerState.ready ::ₘ W) := hbound
    replace hlive : liveTarget target (WorkerState.ready ::ₘ W) := hlive
    have h1t : 1 ≤ target := hlive (Or.inl (Multiset.mem_cons_self _ _))
    refine ⟨?_, ?_, ?_, ?_⟩
    · show Multiset.card (WorkerState.active m ::ₘ W) = thread_count
      rw [Multiset.card_cons] at hcard ⊢; exact hcard
    · show f + pendingSum (WorkerState.active m ::ₘ W) ≤ g + BATCH_SIZE
      rw [pendingSum_cons_active]
      rw [pendingSum_cons_ready] at hgen
      omega
    · show f = 0 ∨ f < target ∨ f + 1 ≤ target + stoppedCount (WorkerState.active m ::ₘ W)
      rw [stoppedCount_cons_active]
      rw [stoppedCount_cons_ready] at hbound; exact hbound
    · intro _
      exact h1t
  | sendMatch f g W m =>
    replace hcard : Multiset.card (WorkerState.active (m + 1) ::ₘ W) = thread_count := hcard
    replace hgen : f + pendingSum (WorkerState.active (m + 1) ::ₘ W) ≤ g := hgen
    replace hbound : f = 0 ∨ f < target ∨
        f + 1 ≤ target + stoppedCount (WorkerState.active (m + 1) ::ₘ W) := hbound
    replace hlive : liveTarget target (WorkerState.active (m + 1) ::ₘ W) := hlive
    have h1t : 1 ≤ target := hlive (Or.inr ⟨m + 1, Multiset.mem_cons_self _ _⟩)
    rw [pendingSum_cons_active] at hgen
    rw [stoppedCount_cons_active] at hbound
    rw [Multiset.card_cons] at hcard
    by_cases ht : target ≤ f + 1
    · simp only [if_pos ht]
      refine ⟨?_, ?_, ?_, ?_⟩
      · show Multiset.card (WorkerState.stopped ::ₘ W) = thread_count
        rw [Multiset.card_cons]; exact hcard
      · show f + 1 + pendingSum (WorkerState.stopped ::ₘ W) ≤ g
        rw [pendingSum_cons_stopped]
        omega
      · show f + 1 = 0 ∨ f + 1 < target ∨
            f + 1 + 1 ≤ target + stoppedCount (WorkerState.stopped ::ₘ W)
        rw [stoppedCount_cons_stopped]
        omega
      · intro _
        exact h1t
    · simp only [if_neg ht]
      refine ⟨?_, ?_, ?_, ?_⟩
      · show Multiset.card (WorkerState.active m ::ₘ W) = thread_count
        rw [Multiset.card_cons]; exact hcard
      · show f + 1 + pendingSum (WorkerState.active m ::ₘ W) ≤ g
        rw [pendingSum_cons_active]
        omega
      · show f + 1 = 0 ∨ f + 1 < target ∨
            f + 1 + 1 ≤ target + stoppedCount (WorkerState.active m ::ₘ W)
        rw [stoppedCount_cons_active]
        omega
      · intro _
        exact h1t
  | finishBatch f g W =>
    replace hcard : Multiset.card (WorkerState.active 0 ::ₘ W) = thread_count := hcard
    replace hgen : f + pendingSum (WorkerState.active 0 ::ₘ W) ≤ g := hgen
    replace hbound : f = 0 ∨ f < target ∨
        f + 1 ≤ target + stoppedCount (WorkerState.active 0 ::ₘ W) := hbound
    replace hlive : liveTarget target (WorkerState.active 0 ::ₘ W) := hlive
    refine ⟨?_, ?_, ?_, ?_⟩
    · show Multiset.card (WorkerState.idle ::ₘ W) = thread_count
      rw [Multiset.card_cons] at hcard ⊢; exact hcard
    · show f + pendingSum (WorkerState.idle ::ₘ W) ≤ g
      rw [pendingSum_cons_idle]
      rw [pendingSum_cons_active] at hgen
      omega
    · show f = 0 ∨ f < target ∨ f + 1 ≤ target + stoppedCount (WorkerState.idle ::ₘ W)
      rw [stoppedCount_cons_idle]
      rw [stoppedCount_cons_active] at hbound; exact hbound
    · exact liveTarget_of_cons hlive (Or.inl rfl)

theorem reachable_inv {thread_count target : Nat} {s : RunState}
    (h : Reachable thread_count target s) : Inv thread_count target s := by
  induction h with
  | refl => exact inv_init thread_count target
  | tail _ hstep ih => exact inv_step ih hstep

/-- C1: `found_count` never decreases at any step, and in every reachable
state of a run with `thread_count ≥ 1` workers it never exceeds
`target + (thread_count - 1)`. -/
theorem found_count_monotone_and_bounded (thread_count target : Nat)
    (hT : 1 ≤ thread_count) :
    (∀ s s' : RunState, Step target s s' → s.found ≤ s'.found) ∧
    (∀ s : RunState, Reachable thread_count target s →
      s.found ≤ target + (thread_count - 1)) := by
  constructor
  · intro s s' h
    cases h <;> simp
  · intro s h
    obtain ⟨hcard, _, hbound, _⟩ := reachable_inv h
    have hS : stoppedCount s.workers ≤ Multiset.card s.workers :=
      Multiset.count_le_card _ _
    rw [hcard] at hS
    omega

/-- C1 witness. -/
theorem found_count_monotone_and_bounded_witness :
    (initState 1).found ≤ 1 + (1 - 1) :=
  (found_count_monotone_and_bounded 1 1 (by decide)).2 (initState 1)
    Relation.ReflTransGen.refl

/-- C6: in every reachable state `generated_count ≥ found_count`, and
`generated_count` never decreases at any step. -/
theorem generated_ge_found_and_monotone (thread_count target : Nat) :
    (∀ s : RunState, Reachable thread_count target s → s.found ≤ s.generated) ∧
    (∀ s s' : RunState, Step target s s' → s.generated ≤ s'.generated) := by
  constructor
  · intro s h
    obtain ⟨_, hgen, _, _⟩ := reachable_inv h
    omega
  · intro s s' h
    cases h <;> simp

/-- C6 witness. -/
theorem generated_ge_found_and_monotone_witness :
    (initState 2).found ≤ (initState 2).generated :=
  (generated_ge_found_and_monotone 2 3).1 (initState 2)
    Relation.ReflTransGen.refl

/-- Helper for C9: with target 0 the outer `while 0 < 0` check never passes,
so no worker ever leaves `idle` except to stop, and both counters stay 0. -/
theorem target_zero_state {thread_count : Nat} {s : RunState}
    (h : Reachable thread_count 0 s) :
    s.found = 0 ∧ s.generated = 0 ∧
      ∀ w ∈ s.workers, w = WorkerState.idle ∨ w = WorkerState.stopped := by
  induction h with
  | refl =>
    refine ⟨rfl, rfl, fun w hw => Or.inl ?_⟩
    exact Multiset.eq_of_mem_replicate hw
  | tail _ hstep ih =>
    obtain ⟨hf, hg, hw⟩ := ih
    cases hstep with
    | passCheck f g W hlt => exact absurd hlt (Nat.not_lt_zero f)
    | exitLoop f g W hle =>
      refine ⟨hf, hg, fun w hmem => ?_⟩
      rcases Multiset.mem_cons.mp hmem with h1 | h2
      · exact Or.inr h1
      · exact hw w (Multiset.mem_cons_of_mem h2)
    | genBatch f g W m hm =>
      have := hw WorkerState.ready (Multiset.mem_cons_self _ _)
      simp at this
    | sendMatch f g W m =>
      have := hw (WorkerState.active (m + 1)) (Multiset.mem_cons_self _ _)
      simp at this
    | finishBatch f g W =>
      have := hw (WorkerState.active 0) (Multiset.mem_cons_self _ _)
      simp at this

/-- C9: with target 0 every reachable state still has both counters at 0 (no
worker ever enters its generation loop, so nothing is generated or sent) and
the writer thread, receiving nothing, writes zero rows — but because it
re-created (truncated) the file, the final output is empty rather than the
header-only file the claim describes. -/
theorem target_zero_run (thread_count : Nat) (s : RunState)
    (h : Reachable thread_count 0 s) :
    s.found = 0 ∧ s.generated = 0 ∧
    start_csv_writer_thread [] = [] ∧
    finalCsvFile [] = [] ∧ csvHeaderLine ∉ finalCsvFile [] := by
  obtain ⟨hf, hg, _⟩ := target_zero_state h
  exact ⟨hf, hg, rfl, rfl, by decide⟩

/-- C9 witness. -/
theorem target_zero_run_witness :
    (initState 4).found = 0 ∧ (initState 4).generated = 0 ∧
    start_csv_writer_thread [] = [] ∧
    finalCsvFile [] = [] ∧ csvHeaderLine ∉ finalCsvFile [] :=
  target_zero_run 4 (initState 4) Relation.ReflTransGen.refl

end SolVanityGen
